import Mathlib

/-!
Verification of the `md_slash` markdown preprocessor
(`docs/tools/src/md_slash/__init__.py`).

Python strings are embedded as lists of characters (`PyString`), so that
`line.endswith('\\')` becomes "the last character is a backslash"
(`line.getLast? = some bslash`), `line[:-1]` becomes `line.dropLast`, and
string concatenation becomes list append.
-/

/-- A Python string, embedded as its sequence of characters. -/
abbrev PyString := List Char

/-- The backslash character. -/
def bslash : Char := '\\'

/-- The fixed break-marker string appended in place of a trailing
backslash: the literal text of the source's `"<br>"`. -/
def breakMarker : PyString := ['<', 'b', 'r', '>']

/-- The body of the loop in `TrailingSlashPreprocessor.run`: if the line
ends with a trailing backslash (`line.endswith('\\')`), remove that final
character (`line[:-1]`) and append `"<br>"`; otherwise keep the line. -/
def processLine (line : PyString) : PyString :=
  if line.getLast? = some bslash then line.dropLast ++ breakMarker else line

namespace TrailingSlashPreprocessor

/-- `TrailingSlashPreprocessor.run`: builds `new_lines` by appending, for
each input line in order, the transformed line. -/
def run (lines : List PyString) : List PyString :=
  lines.map processLine

end TrailingSlashPreprocessor

/-- Modelled from the spec: the host's ordered collection of
line-preprocessing stages (`md.preprocessors` of the third-party host
framework, which is not part of this repository). A stage is registered
under a stable string identifier together with an integer priority; in the
host's convention, a higher priority value executes earlier. -/
structure Registry where
  entries : List (String × Nat)

/-- Modelled from the spec: `md.preprocessors.register(item, name, priority)`
adds an entry under the given identifier and priority. -/
def Registry.register (r : Registry) (name : String) (priority : Nat) :
    Registry :=
  ⟨(name, priority) :: r.entries⟩

/-- Modelled from the spec: in the host's convention, a stage with
priority `p` executes earlier than a stage with priority `q` exactly when
`p` is the higher value. -/
def runsEarlier (p q : Nat) : Prop := q < p

instance (p q : Nat) : Decidable (runsEarlier p q) := by
  unfold runsEarlier; infer_instance

/-- The extension object wrapping the preprocessor. The component defines
no configuration options of its own, so the object carries no data. -/
structure TrailingSlashExtension where

/-- `TrailingSlashExtension.extendMarkdown`: registers the preprocessor
into the host registry under the identifier
`trailing_slash_preprocessor` with priority `25`. -/
def TrailingSlashExtension.extendMarkdown (_e : TrailingSlashExtension)
    (md : Registry) : Registry :=
  md.register "trailing_slash_preprocessor" 25

/-- Modelled from the spec: the host's extension loader passes arbitrary
named configuration parameters; keyword arguments are embedded as a list
of name/value pairs. -/
abbrev Kwargs := List (String × String)

/-- `makeExtension(**kwargs)`: returns a `TrailingSlashExtension`.
Modelled from the spec: the third-party `Extension` base constructor is
not part of this repository; per the spec it accepts arbitrary keyword
configuration and, the component recognizing no options, consumes none. -/
def makeExtension (_kwargs : Kwargs) : TrailingSlashExtension := ⟨⟩

/-- Fuel-indexed version of the loop of `TrailingSlashPreprocessor.run`:
each iteration of the `for` loop consumes one unit of fuel, and the loop
fails only if the fuel runs out before the input is exhausted. -/
def runFuel : Nat → List PyString → Option (List PyString)
  | _, [] => some []
  | 0, _ :: _ => none
  | fuel + 1, line :: rest =>
      (runFuel fuel rest).map (fun tail => processLine line :: tail)

section Lemmas

/-- A line ending in the break marker does not end in a backslash. -/
theorem getLast_append_breakMarker (pre : PyString) :
    (pre ++ breakMarker).getLast? = some '>' := by
  rw [List.getLast?_append_of_ne_nil _ (by simp [breakMarker])]
  rfl

theorem processLine_of_getLast (line : PyString)
    (h : line.getLast? = some bslash) :
    processLine line = line.dropLast ++ breakMarker := by
  simp [processLine, h]

theorem processLine_of_not_getLast (line : PyString)
    (h : line.getLast? ≠ some bslash) :
    processLine line = line := by
  simp [processLine, h]

theorem processLine_idem (line : PyString) :
    processLine (processLine line) = processLine line := by
  by_cases h : line.getLast? = some bslash
  · rw [processLine_of_getLast line h]
    apply processLine_of_not_getLast
    rw [getLast_append_breakMarker]
    simp [bslash]
  · rw [processLine_of_not_getLast line h,
      processLine_of_not_getLast line h]

theorem getLast_append_cons (pre : PyString) (a : Char) (tl : PyString)
    (h : tl ≠ []) : (pre ++ a :: tl).getLast? = tl.getLast? := by
  rw [show pre ++ a :: tl = (pre ++ [a]) ++ tl by simp,
    List.getLast?_append_of_ne_nil _ h]

theorem run_getElem (lines : List PyString) (i : Nat) :
    (TrailingSlashPreprocessor.run lines)[i]? =
      Option.map processLine lines[i]? := by
  simp [TrailingSlashPreprocessor.run]

end Lemmas

/-- C1: if `lines[i]` ends with a backslash character, then the i-th
element of the output of `TrailingSlashPreprocessor.run` equals
`lines[i]` with its final character removed, immediately followed by the
fixed break-marker string `"<br>"`. -/
theorem run_transforms_trailing_backslash
    (lines : List PyString) (i : Nat) (line : PyString)
    (hline : lines[i]? = some line)
    (hbs : line.getLast? = some bslash) :
    (TrailingSlashPreprocessor.run lines)[i]? =
      some (line.dropLast ++ breakMarker) := by
  rw [run_getElem, hline, Option.map_some']
  rw [processLine_of_getLast line hbs]

/-- Witness for C1: the input line `"hello\"` at index 0 is mapped to
`"hello<br>"`. -/
theorem run_transforms_trailing_backslash_witness :
    (TrailingSlashPreprocessor.run
        [['h', 'e', 'l', 'l', 'o', '\\']])[0]? =
      some ['h', 'e', 'l', 'l', 'o', '<', 'b', 'r', '>'] := by
  have h := run_transforms_trailing_backslash
    [['h', 'e', 'l', 'l', 'o', '\\']] 0
    ['h', 'e', 'l', 'l', 'o', '\\'] (by rfl) (by rfl)
  simpa [breakMarker] using h

/-- C2: if `lines[i]` does not end with a backslash character (including
the empty string), then the i-th element of the output of
`TrailingSlashPreprocessor.run` is exactly `lines[i]`. -/
theorem run_identity_on_non_backslash
    (lines : List PyString) (i : Nat) (line : PyString)
    (hline : lines[i]? = some line)
    (hbs : line.getLast? ≠ some bslash) :
    (TrailingSlashPreprocessor.run lines)[i]? = some line := by
  rw [run_getElem, hline, Option.map_some']
  rw [processLine_of_not_getLast line hbs]

/-- Witness for C2: the empty string passes through unchanged. -/
theorem run_identity_on_non_backslash_witness :
    (TrailingSlashPreprocessor.run [[]])[0]? = some [] :=
  run_identity_on_non_backslash [[]] 0 [] (by rfl) (by decide)

/-- C3: the output of `TrailingSlashPreprocessor.run` has exactly the
same length as the input, and the empty sequence maps to the empty
sequence. -/
theorem run_preserves_length (S : List PyString) :
    (TrailingSlashPreprocessor.run S).length = S.length ∧
      TrailingSlashPreprocessor.run [] = [] :=
  ⟨List.length_map S processLine, rfl⟩

/-- C4: on a line ending in two or more consecutive backslashes,
`TrailingSlashPreprocessor.run` strips only the single final backslash
and appends the break marker, leaving the preceding backslashes
untouched; in particular `"a\\"` maps to `"a\<br>"`. -/
theorem run_strips_only_final_backslash
    (lines : List PyString) (i : Nat) (pre : PyString)
    (hline : lines[i]? = some (pre ++ ['\\', '\\'])) :
    (TrailingSlashPreprocessor.run lines)[i]? =
        some (pre ++ '\\' :: breakMarker) ∧
      TrailingSlashPreprocessor.run [['a', '\\', '\\']] =
        [['a', '\\', '<', 'b', 'r', '>']] := by
  constructor
  · rw [run_getElem, hline, Option.map_some']
    have hbs : (pre ++ ['\\', '\\']).getLast? = some bslash := by
      rw [List.getLast?_append_of_ne_nil _ (by simp)]; rfl
    rw [processLine_of_getLast _ hbs]
    have hdrop : (pre ++ ['\\', '\\']).dropLast = pre ++ ['\\'] := by
      rw [show pre ++ ['\\', '\\'] = (pre ++ ['\\']) ++ ['\\'] by simp]
      exact List.dropLast_concat
    rw [hdrop]
    simp [breakMarker]
  · rfl

/-- Witness for C4: the line `"a\\"` (two trailing backslashes) at
index 0 becomes `"a\<br>"`. -/
theorem run_strips_only_final_backslash_witness :
    (TrailingSlashPreprocessor.run [['a', '\\', '\\']])[0]? =
        some (['a'] ++ '\\' :: breakMarker) ∧
      TrailingSlashPreprocessor.run [['a', '\\', '\\']] =
        [['a', '\\', '<', 'b', 'r', '>']] :=
  run_strips_only_final_backslash [['a', '\\', '\\']] 0 ['a'] (by rfl)

/-- C5: `TrailingSlashPreprocessor.run` is idempotent: running it twice
gives the same output as running it once, because the break marker does
not end in a backslash. -/
theorem run_idempotent (S : List PyString) :
    TrailingSlashPreprocessor.run (TrailingSlashPreprocessor.run S) =
      TrailingSlashPreprocessor.run S := by
  unfold TrailingSlashPreprocessor.run
  rw [List.map_map]
  exact List.map_congr_left (fun line _ => processLine_idem line)

/-- C6: the backslash check is a strict suffix match on the final
character with no whitespace stripping: a line containing a backslash
followed by any nonempty run of trailing whitespace characters (so its
last character is whitespace, not a backslash) is left unchanged by
`TrailingSlashPreprocessor.run`. -/
theorem run_strict_final_char_check
    (lines : List PyString) (i : Nat) (pre ws : PyString)
    (hne : ws ≠ [])
    (hws : ∀ c ∈ ws, c.isWhitespace)
    (hline : lines[i]? = some (pre ++ '\\' :: ws)) :
    (TrailingSlashPreprocessor.run lines)[i]? =
      some (pre ++ '\\' :: ws) := by
  rw [run_getElem, hline, Option.map_some']
  have hbs : (pre ++ '\\' :: ws).getLast? ≠ some bslash := by
    rw [getLast_append_cons _ _ _ hne,
      List.getLast?_eq_getLast_of_ne_nil hne]
    have hmem : ws.getLast hne ∈ ws := List.getLast_mem hne
    have hw : (ws.getLast hne).isWhitespace := hws _ hmem
    intro hcontra
    rw [Option.some_inj] at hcontra
    rw [hcontra] at hw
    exact absurd hw (by decide)
  rw [processLine_of_not_getLast _ hbs]

/-- Witness for C6: the line `"\  "` (backslash then two spaces)
passes through unchanged. -/
theorem run_strict_final_char_check_witness :
    (TrailingSlashPreprocessor.run [['\\', ' ', ' ']])[0]? =
      some ([] ++ '\\' :: [' ', ' ']) :=
  run_strict_final_char_check [['\\', ' ', ' ']] 0 [] [' ', ' ']
    (by decide) (by decide) (by rfl)

/-- C7: `TrailingSlashExtension.extendMarkdown` registers the
preprocessor into the host registry under the identifier
`trailing_slash_preprocessor` with the fixed priority 25, and any host
standard-processing priority that 25 exceeds runs later in the host's
higher-runs-earlier convention, so this stage runs first. -/
theorem extendMarkdown_registers
    (e : TrailingSlashExtension) (md : Registry) (std : Nat) :
    ("trailing_slash_preprocessor", 25) ∈ (e.extendMarkdown md).entries ∧
      (std < 25 → runsEarlier 25 std) := by
  refine ⟨?_, fun h => h⟩
  simp [TrailingSlashExtension.extendMarkdown, Registry.register]

/-- Witness for C7: against a host whose standard-processing stage has
priority 20, the registered stage runs earlier. -/
theorem extendMarkdown_registers_witness :
    ("trailing_slash_preprocessor", 25) ∈
        ((⟨⟩ : TrailingSlashExtension).extendMarkdown ⟨[]⟩).entries ∧
      runsEarlier 25 20 :=
  ⟨(extendMarkdown_registers ⟨⟩ ⟨[]⟩ 20).1,
    (extendMarkdown_registers ⟨⟩ ⟨[]⟩ 20).2 (by decide)⟩

/-- C8: `makeExtension` accepts arbitrary named configuration parameters
and succeeds for any keyword arguments, none of which affect the
extension's behavior, since no configuration options are recognized. -/
theorem makeExtension_ignores_kwargs (kwargs : Kwargs) (md : Registry) :
    makeExtension kwargs = makeExtension [] ∧
      (makeExtension kwargs).extendMarkdown md =
        md.register "trailing_slash_preprocessor" 25 :=
  ⟨rfl, rfl⟩

/-- C9: `TrailingSlashPreprocessor.run` terminates unconditionally on
every finite input: the loop completes within one fuel unit per input
line and always returns a result, never a failure. -/
theorem run_terminates (S : List PyString) (fuel : Nat)
    (h : S.length ≤ fuel) :
    runFuel fuel S = some (TrailingSlashPreprocessor.run S) := by
  induction S generalizing fuel with
  | nil => cases fuel <;> rfl
  | cons line rest ih =>
      cases fuel with
      | zero => exact absurd h (by simp)
      | succ fuel =>
          rw [runFuel, ih fuel (Nat.le_of_succ_le_succ h)]
          rfl

/-- Witness for C9: one fuel unit completes the loop on a one-line
input. -/
theorem run_terminates_witness :
    runFuel 1 [['a']] = some (TrailingSlashPreprocessor.run [['a']]) :=
  run_terminates [['a']] 1 (by decide)

/-- C10: no output line of `TrailingSlashPreprocessor.run` ends with a
backslash: each output line either equals an input line that did not end
with a backslash, or ends with the break marker `"<br>"`. -/
theorem run_no_trailing_backslash
    (lines : List PyString) (i : Nat) (out : PyString)
    (hout : (TrailingSlashPreprocessor.run lines)[i]? = some out) :
    out.getLast? ≠ some bslash ∧
      ((∃ l, lines[i]? = some l ∧ out = l ∧ l.getLast? ≠ some bslash) ∨
        ∃ pre, out = pre ++ breakMarker) := by
  rw [run_getElem] at hout
  cases hl : lines[i]? with
  | none => rw [hl] at hout; exact absurd hout (by simp)
  | some l =>
      rw [hl, Option.map_some'] at hout
      have hpl : processLine l = out := Option.some.injEq _ _ ▸ hout
      by_cases hbs : l.getLast? = some bslash
      · rw [processLine_of_getLast l hbs] at hpl
        refine ⟨?_, Or.inr ⟨l.dropLast, hpl.symm⟩⟩
        rw [← hpl, getLast_append_breakMarker]
        simp [bslash]
      · rw [processLine_of_not_getLast l hbs] at hpl
        exact ⟨hpl ▸ hbs, Or.inl ⟨l, rfl, hpl.symm, hbs⟩⟩

/-- Witness for C10: on the input line `"\"` the output line `"<br>"`
does not end with a backslash and ends with the break marker. -/
theorem run_no_trailing_backslash_witness :
    (['<', 'b', 'r', '>'] : PyString).getLast? ≠ some bslash ∧
      ((∃ l, ([['\\']] : List PyString)[0]? = some l ∧
          (['<', 'b', 'r', '>'] : PyString) = l ∧
          l.getLast? ≠ some bslash) ∨
        ∃ pre, (['<', 'b', 'r', '>'] : PyString) =
          pre ++ breakMarker) :=
  run_no_trailing_backslash [['\\']] 0 ['<', 'b', 'r', '>'] (by rfl)
